import Mathlib

/-!
Verification of the naming and class-synthesis core of the reverse-sql
code generator.  The definitions below are shallow embeddings of
`src/mapper/reverse-sql-object-name-provider.ts`
(class `DefaultReverseSqlObjectNameProvider`) and of the result-set class
builder (`ResultSetClassBuilder.buildStoredProcResultSetClasses`).
JavaScript strings are modelled as Lean `String`; the regex `[^\w]`
matches exactly the characters outside `[A-Za-z0-9_]`.  Functions imported
from external packages (`NameUtility.capitalize`,
`NameUtility.upperToLowerCamelCase`, `isReservedKeyword`,
`SqlToCSharpTypeMapper.canBeNullable`) are not part of this repository:
where their behaviour is irrelevant they are universally quantified
parameters; `capitalize` is modelled concretely where a claim needs its
value.
-/

namespace ReverseSql

/-- Character class of the regex `\w`: ASCII letters, digits and underscore. -/
def isWordChar (c : Char) : Bool :=
  c.isAlphanum || c == '_'

/-- List-level embedding of `input.replace(/[^\w]/g, '')`: every character
outside the word class is dropped, the rest are kept in order. -/
def removeNonWord : List Char → List Char
  | [] => []
  | c :: cs => if isWordChar c then c :: removeNonWord cs else removeNonWord cs

/-- Embedding of `DefaultReverseSqlObjectNameProvider.cleanup`:
`if (!input) return ''; return input.replace(/[^\w]/g, '');`.
The JavaScript falsiness guard `!input` is the empty-string test. -/
def cleanup (input : String) : String :=
  if input = "" then "" else String.mk (removeNonWord input.data)

/-- Modelled from the spec: `NameUtility.capitalize` of the external
`@yellicode/core` package (not part of this repository) upper-cases the
first character of its argument and leaves the rest unchanged. -/
def capitalize (s : String) : String :=
  match s.data with
  | [] => s
  | c :: cs => String.mk (c.toUpper :: cs)

/-- `DbTable` of `src/model/database` as used by the name provider
(only `schema` and `name` are read; the same shape stands for table
types, which the source also represents as `DbTable`). -/
structure DbTable where
  schema : String
  name : String

/-- Column descriptor of a result set as read by the builder and by
`getColumnPropertyName` (`{ name?: string, ordinal: number }` plus the
pre-mapped `objectTypeName` and `isNullable` used by the builder).
`name? : string` is an optional field, hence `Option String`. -/
structure ResultSetColumn where
  name : Option String
  ordinal : Nat
  objectTypeName : String
  isNullable : Bool

/-- A stored procedure's result set: an ordered list of columns. -/
structure SqlResultSet where
  columns : List ResultSetColumn

/-- `SqlServerStoredProcedure` as read by the builder and the name
provider: `schema`, `name`, and the optional `resultSets` array. -/
structure SqlServerStoredProcedure where
  schema : String
  name : String
  resultSets : Option (List SqlResultSet)

/-- `SqlParameter` of `src/model/database` (only `name` is read by the
name provider). -/
structure SqlParameter where
  name : String
  sqlTypeName : String
  isNullable : Bool
  isOutput : Bool

/-- Output `PropertyDefinition` (`@yellicode/csharp`) as populated by the
builder: name, type name, access modifier and the nullability flag. -/
structure PropertyDefinition where
  name : String
  typeName : String
  accessModifier : String
  isNullable : Bool

/-- Output `ClassDefinition` (`@yellicode/csharp`) as populated by the
builder. -/
structure ClassDefinition where
  name : String
  accessModifier : String
  properties : List PropertyDefinition

/-- Embedding of `getStoredProcedureResultSetClassName`.  The instance
field `this.includeSchema` is passed explicitly.  The truthiness test
`sp.schema` on a string is `sp.schema ≠ ""`. -/
def getStoredProcedureResultSetClassName (includeSchema : Bool)
    (sp : SqlServerStoredProcedure) : String :=
  let cleanedUpSpName := cleanup sp.name
  if includeSchema = true ∧ sp.schema ≠ "" ∧ sp.schema ≠ "dbo" then
    let cleanedUpSchemaName := cleanup sp.schema
    cleanedUpSchemaName ++ "_" ++ cleanedUpSpName ++ "Result"
  else cleanedUpSpName ++ "Result"

/-- Embedding of `getTableClassName`. -/
def getTableClassName (includeSchema : Bool) (table : DbTable) : String :=
  let cleanedUpTableName := cleanup table.name
  if includeSchema = true ∧ table.schema ≠ "" ∧ table.schema ≠ "dbo" then
    let cleanedUpSchemaName := cleanup table.schema
    cleanedUpSchemaName ++ "_" ++ cleanedUpTableName
  else cleanedUpTableName

/-- Embedding of `getTableTypeClassName`.  Note: the source condition is
`this.includeSchema && tableType.schema` — there is no `!== 'dbo'` test
here, unlike the other naming functions. -/
def getTableTypeClassName (includeSchema : Bool) (tableType : DbTable) : String :=
  let cleanedUpTableName := cleanup tableType.name
  if includeSchema = true ∧ tableType.schema ≠ "" then
    let cleanedUpSchemaName := cleanup tableType.schema
    cleanedUpSchemaName ++ "_" ++ cleanedUpTableName
  else cleanedUpTableName

/-- Embedding of `getResultSetMapperClassName`. -/
def getResultSetMapperClassName (resultSetClassName : String) : String :=
  resultSetClassName ++ "Mapper"

/-- Embedding of `getColumnPropertyName`.  The guard `!col.name` is true
both when the optional field is absent and when it is the empty string. -/
def getColumnPropertyName (col : ResultSetColumn) : String :=
  match col.name with
  | none => "Column" ++ toString col.ordinal
  | some s => if s = "" then "Column" ++ toString col.ordinal else cleanup s

/-- Embedding of `getCleanObjectNameWithSchema`, the shared helper behind
the stored-procedure method name and the CRUD method names.  This is the
one place the schema is capitalized. -/
def getCleanObjectNameWithSchema (includeSchema : Bool) (schema : String)
    (name : String) : String :=
  let cleanedUpName := cleanup name
  if includeSchema = true ∧ schema ≠ "" ∧ schema ≠ "dbo" then
    let cleanedUpSchema := capitalize (cleanup schema)
    cleanedUpSchema ++ "_" ++ cleanedUpName
  else cleanedUpName

/-- Embedding of `getStoredProcedureMethodName`. -/
def getStoredProcedureMethodName (includeSchema : Bool)
    (sp : SqlServerStoredProcedure) : String :=
  getCleanObjectNameWithSchema includeSchema sp.schema sp.name

/-- Embedding of `getTableInsertMethodName`. -/
def getTableInsertMethodName (includeSchema : Bool) (table : DbTable) : String :=
  getCleanObjectNameWithSchema includeSchema table.schema
    ("Insert" ++ capitalize table.name)

/-- Embedding of `getTableDeleteMethodName`. -/
def getTableDeleteMethodName (includeSchema : Bool) (table : DbTable) : String :=
  getCleanObjectNameWithSchema includeSchema table.schema
    ("Delete" ++ capitalize table.name)

/-- Embedding of `getTableUpdateMethodName`. -/
def getTableUpdateMethodName (includeSchema : Bool) (table : DbTable) : String :=
  getCleanObjectNameWithSchema includeSchema table.schema
    ("Update" ++ capitalize table.name)

/-- Embedding of `getTableSelectByPrimaryKeyMethodName`. -/
def getTableSelectByPrimaryKeyMethodName (includeSchema : Bool)
    (table : DbTable) : String :=
  getCleanObjectNameWithSchema includeSchema table.schema
    ("Select" ++ capitalize table.name)

/-- Embedding of `getTableSelectByExpressionMethodName`. -/
def getTableSelectByExpressionMethodName (includeSchema : Bool)
    (table : DbTable) : String :=
  getCleanObjectNameWithSchema includeSchema table.schema
    ("Select" ++ capitalize table.name ++ "Where")

/-- Embedding of `getParameterName`, parametric in the external functions
`NameUtility.upperToLowerCamelCase` (`uLC`) and the C# keyword test
`isReservedKeyword` (`iRK`). -/
def getParameterName (uLC : String → String) (iRK : String → Bool)
    (parameter : SqlParameter) : String :=
  let name0 := if parameter.name.startsWith "@" then parameter.name.drop 1
               else parameter.name
  let name1 := cleanup name0
  let name2 := uLC name1
  if iRK name2 then "@" ++ name2 else name2

/-- The property the builder synthesizes for one result-set column,
parametric in the external `SqlToCSharpTypeMapper.canBeNullable` (`cbn`)
and the provider's column-property-name function (`gp`). -/
def mkResultSetProperty (cbn : String → Bool) (gp : ResultSetColumn → String)
    (col : ResultSetColumn) : PropertyDefinition :=
  { name := gp col
    typeName := col.objectTypeName
    accessModifier := "public"
    isNullable := col.isNullable && cbn col.objectTypeName }

/-- The columns of a stored procedure's first result set
(`sp.resultSets[0].columns`), empty when there is none. -/
def spFirstColumns (sp : SqlServerStoredProcedure) : List ResultSetColumn :=
  match sp.resultSets with
  | some (rs0 :: _) => rs0.columns
  | _ => []

/-- Whether the guard `!sp.resultSets || !sp.resultSets.length` lets the
stored procedure through. -/
def spHasResultSet (sp : SqlServerStoredProcedure) : Bool :=
  match sp.resultSets with
  | some (_ :: _) => true
  | _ => false

/-- The class the builder synthesizes for one admitted stored procedure,
parametric in the provider's result-set class name function (`gc`). -/
def mkResultSetClass (cbn : String → Bool)
    (gc : SqlServerStoredProcedure → String) (gp : ResultSetColumn → String)
    (sp : SqlServerStoredProcedure) : ClassDefinition :=
  { name := gc sp
    accessModifier := "public"
    properties := (spFirstColumns sp).map (mkResultSetProperty cbn gp) }

/-- Embedding of `ResultSetClassBuilder.buildStoredProcResultSetClasses`:
a `forEach` that skips stored procedures whose `resultSets` is absent or
empty and pushes one class definition per remaining stored procedure,
built from the first result set's columns in order. -/
def buildStoredProcResultSetClasses (cbn : String → Bool)
    (gc : SqlServerStoredProcedure → String) (gp : ResultSetColumn → String)
    (storedProcedures : List SqlServerStoredProcedure) : List ClassDefinition :=
  storedProcedures.foldl
    (fun classDefinitions sp =>
      match sp.resultSets with
      | none => classDefinitions
      | some [] => classDefinitions
      | some (_ :: _) => classDefinitions ++ [mkResultSetClass cbn gc gp sp])
    []

/- ### Helper lemmas -/

theorem removeNonWord_eq_filter (l : List Char) :
    removeNonWord l = l.filter isWordChar := by
  induction l with
  | nil => rfl
  | cons c cs ih =>
    simp only [removeNonWord, List.filter]
    cases h : isWordChar c <;> simp [h, ih]

theorem removeNonWord_idem (l : List Char) :
    removeNonWord (removeNonWord l) = removeNonWord l := by
  simp only [removeNonWord_eq_filter, List.filter_filter]
  congr 1
  funext a
  exact Bool.and_self _

theorem data_mk (l : List Char) : (String.mk l).data = l := rfl

theorem empty_data : ("" : String).data = [] := rfl

theorem build_foldl_eq (cbn : String → Bool)
    (gc : SqlServerStoredProcedure → String) (gp : ResultSetColumn → String)
    (sps : List SqlServerStoredProcedure) :
    ∀ acc : List ClassDefinition,
    sps.foldl
      (fun classDefinitions sp =>
        match sp.resultSets with
        | none => classDefinitions
        | some [] => classDefinitions
        | some (_ :: _) => classDefinitions ++ [mkResultSetClass cbn gc gp sp])
      acc
    = acc ++ (sps.filter spHasResultSet).map (mkResultSetClass cbn gc gp) := by
  induction sps with
  | nil => intro acc; simp
  | cons sp sps ih =>
    intro acc
    simp only [List.foldl, List.filter]
    cases hrs : sp.resultSets with
    | none =>
      have hhas : spHasResultSet sp = false := by simp [spHasResultSet, hrs]
      rw [hhas, ih]
    | some l =>
      cases l with
      | nil =>
        have hhas : spHasResultSet sp = false := by simp [spHasResultSet, hrs]
        rw [hhas, ih]
      | cons rs0 rest =>
        have hhas : spHasResultSet sp = true := by simp [spHasResultSet, hrs]
        rw [hhas, ih]
        simp

theorem build_eq (cbn : String → Bool) (gc : SqlServerStoredProcedure → String)
    (gp : ResultSetColumn → String) (sps : List SqlServerStoredProcedure) :
    buildStoredProcResultSetClasses cbn gc gp sps =
      (sps.filter spHasResultSet).map (mkResultSetClass cbn gc gp) := by
  rw [buildStoredProcResultSetClasses, build_foldl_eq]
  simp

/- ### C7 and C8 -/

/-- C7: `cleanup` is idempotent: for every string `s`,
`cleanup (cleanup s) = cleanup s`. -/
theorem cleanup_idempotent (s : String) : cleanup (cleanup s) = cleanup s := by
  by_cases h : s = ""
  · simp [cleanup, h]
  · have hs : cleanup s = String.mk (removeNonWord s.data) := by
      rw [cleanup, if_neg h]
    rw [hs]
    by_cases h2 : String.mk (removeNonWord s.data) = ""
    · rw [h2]
      simp [cleanup]
    · rw [cleanup, if_neg h2, data_mk, removeNonWord_idem]

/-- C8: `cleanup` keeps exactly the characters in the
letter/digit/underscore class (it equals a filter by `isWordChar`) and
the retained characters form a sublist of the input, so their relative
order is preserved. -/
theorem cleanup_filters_word_chars (s : String) :
    (cleanup s).data = s.data.filter isWordChar ∧
    (cleanup s).data.Sublist s.data := by
  by_cases h : s = ""
  · subst h
    simp [cleanup]
  · rw [cleanup, if_neg h, data_mk, removeNonWord_eq_filter]
    exact ⟨rfl, List.filter_sublist s.data⟩

/- ### C4, C5, C1: the result-set class builder -/

/-- C4: `buildStoredProcResultSetClasses` returns exactly one class
definition per stored procedure whose `resultSets` list is present and
non-empty, in input order (it equals the map of `mkResultSetClass` over
the input filtered by `spHasResultSet`), and stored procedures with an
empty or absent result-set list are excluded without any error (the
function is total). -/
theorem buildStoredProcResultSetClasses_one_class_per_proc
    (cbn : String → Bool) (gc : SqlServerStoredProcedure → String)
    (gp : ResultSetColumn → String) (sps : List SqlServerStoredProcedure) :
    buildStoredProcResultSetClasses cbn gc gp sps =
      (sps.filter spHasResultSet).map (mkResultSetClass cbn gc gp) ∧
    (buildStoredProcResultSetClasses cbn gc gp sps).length =
      (sps.filter spHasResultSet).length :=
  ⟨build_eq cbn gc gp sps, by rw [build_eq]; simp⟩

/-- C5: for a stored procedure whose `resultSets` list starts with
`rs0`, the synthesized class's properties are exactly the map of the
property constructor over `rs0.columns`, in column order; the remaining
result sets (`rest`) do not occur in the conclusion, so they contribute
nothing. -/
theorem buildStoredProcResultSetClasses_first_result_set
    (cbn : String → Bool) (gc : SqlServerStoredProcedure → String)
    (gp : ResultSetColumn → String) (sps : List SqlServerStoredProcedure)
    (sp : SqlServerStoredProcedure) (rs0 : SqlResultSet)
    (rest : List SqlResultSet) (hmem : sp ∈ sps)
    (hrs : sp.resultSets = some (rs0 :: rest)) :
    ∃ cd ∈ buildStoredProcResultSetClasses cbn gc gp sps,
      cd.name = gc sp ∧
      cd.properties = rs0.columns.map (mkResultSetProperty cbn gp) := by
  refine ⟨mkResultSetClass cbn gc gp sp, ?_, rfl, ?_⟩
  · rw [build_eq]
    exact List.mem_map_of_mem _
      (List.mem_filter.mpr ⟨hmem, by simp [spHasResultSet, hrs]⟩)
  · simp [mkResultSetClass, spFirstColumns, hrs]

/-- Witness for C5 at a concrete stored procedure with two result sets:
only the first result set's column shows up in the class. -/
theorem buildStoredProcResultSetClasses_first_result_set_witness :
    ∃ cd ∈ buildStoredProcResultSetClasses (fun _ => true)
        (getStoredProcedureResultSetClassName false) getColumnPropertyName
        [⟨"dbo", "GetStuff",
          some [⟨[⟨some "Id", 0, "int", true⟩]⟩,
                ⟨[⟨some "Other", 0, "bit", false⟩]⟩]⟩],
      cd.name = "GetStuffResult" ∧
      cd.properties =
        [⟨"Id", "int", "public", true⟩] :=
  buildStoredProcResultSetClasses_first_result_set (fun _ => true)
    (getStoredProcedureResultSetClassName false) getColumnPropertyName
    [⟨"dbo", "GetStuff",
      some [⟨[⟨some "Id", 0, "int", true⟩]⟩,
            ⟨[⟨some "Other", 0, "bit", false⟩]⟩]⟩]
    ⟨"dbo", "GetStuff",
      some [⟨[⟨some "Id", 0, "int", true⟩]⟩,
            ⟨[⟨some "Other", 0, "bit", false⟩]⟩]⟩
    ⟨[⟨some "Id", 0, "int", true⟩]⟩ [⟨[⟨some "Other", 0, "bit", false⟩]⟩]
    (by simp) rfl

/-- C1: for every stored procedure in the input with a first result set
`rs0`, the builder's output contains a class whose property at each
index `i` has `isNullable = true` exactly when the column at index `i`
has `isNullable = true` and `canBeNullable` holds of its mapped type
name. -/
theorem buildStoredProcResultSetClasses_isNullable_iff
    (cbn : String → Bool) (gc : SqlServerStoredProcedure → String)
    (gp : ResultSetColumn → String) (sps : List SqlServerStoredProcedure)
    (sp : SqlServerStoredProcedure) (rs0 : SqlResultSet)
    (rest : List SqlResultSet) (hmem : sp ∈ sps)
    (hrs : sp.resultSets = some (rs0 :: rest)) :
    ∃ cd ∈ buildStoredProcResultSetClasses cbn gc gp sps,
      ∀ (i : Nat) (col : ResultSetColumn), rs0.columns[i]? = some col →
        ∃ p : PropertyDefinition, cd.properties[i]? = some p ∧
          (p.isNullable = true ↔
            (col.isNullable = true ∧ cbn col.objectTypeName = true)) := by
  refine ⟨mkResultSetClass cbn gc gp sp, ?_, ?_⟩
  · rw [build_eq]
    exact List.mem_map_of_mem _
      (List.mem_filter.mpr ⟨hmem, by simp [spHasResultSet, hrs]⟩)
  · intro i col hcol
    refine ⟨mkResultSetProperty cbn gp col, ?_, ?_⟩
    · simp [mkResultSetClass, spFirstColumns, hrs, List.getElem?_map, hcol]
    · simp [mkResultSetProperty, Bool.and_eq_true]

/-- Witness for C1 at a concrete stored procedure: a nullable `int`
column with `canBeNullable` true, and a nullable `string` column with
`canBeNullable` false. -/
theorem buildStoredProcResultSetClasses_isNullable_iff_witness :
    ∃ cd ∈ buildStoredProcResultSetClasses (fun t => t == "int")
        (getStoredProcedureResultSetClassName false) getColumnPropertyName
        [⟨"dbo", "GetStuff",
          some [⟨[⟨some "Id", 0, "int", true⟩,
                  ⟨some "Label", 1, "string", true⟩]⟩]⟩],
      ∀ (i : Nat) (col : ResultSetColumn),
        ([⟨some "Id", 0, "int", true⟩,
          ⟨some "Label", 1, "string", true⟩] :
            List ResultSetColumn)[i]? = some col →
        ∃ p : PropertyDefinition, cd.properties[i]? = some p ∧
          (p.isNullable = true ↔
            (col.isNullable = true ∧ (col.objectTypeName == "int") = true)) :=
  buildStoredProcResultSetClasses_isNullable_iff (fun t => t == "int")
    (getStoredProcedureResultSetClassName false) getColumnPropertyName
    [⟨"dbo", "GetStuff",
      some [⟨[⟨some "Id", 0, "int", true⟩,
              ⟨some "Label", 1, "string", true⟩]⟩]⟩]
    ⟨"dbo", "GetStuff",
      some [⟨[⟨some "Id", 0, "int", true⟩,
              ⟨some "Label", 1, "string", true⟩]⟩]⟩
    ⟨[⟨some "Id", 0, "int", true⟩, ⟨some "Label", 1, "string", true⟩]⟩ []
    (by simp) rfl

/- ### C2: schema prefix of table and result-set class names -/

/-- C2 counterexample: with `includeSchema = true`, schema `sales` and
names `Orders` / `GetOrders`, the code produces `sales_Orders` and
`sales_GetOrdersResult` — the schema prefix is NOT capitalized — whereas
the claimed `cleanup (capitalize schema)` prefix would give
`Sales_Orders` and `Sales_GetOrdersResult`. -/
theorem schemaPrefix_capitalization_cex :
    getTableClassName true ⟨"sales", "Orders"⟩ = "sales_Orders" ∧
    cleanup (capitalize "sales") ++ "_" ++ cleanup "Orders" = "Sales_Orders" ∧
    ("sales_Orders" : String) ≠ "Sales_Orders" ∧
    getStoredProcedureResultSetClassName true ⟨"sales", "GetOrders", none⟩ =
      "sales_GetOrdersResult" ∧
    ("sales_GetOrdersResult" : String) ≠ "Sales_GetOrdersResult" := by
  refine ⟨by decide, by decide, by decide, by decide, by decide⟩

/-- C2 (amended): with `includeSchema = true` and a present, non-default
schema, `getTableClassName` prefixes the cleaned (NOT capitalized) schema
name joined by an underscore, and the stored-procedure result-set class
name is likewise `cleanup(schema) ++ "_" ++ cleanup(name) ++ "Result"`
(so `sales.GetOrders` yields `sales_GetOrdersResult`). -/
theorem tableClassName_schema_prefix (t : DbTable) (sp : SqlServerStoredProcedure)
    (h1 : t.schema ≠ "") (h2 : t.schema ≠ "dbo")
    (h3 : sp.schema ≠ "") (h4 : sp.schema ≠ "dbo") :
    getTableClassName true t = cleanup t.schema ++ "_" ++ cleanup t.name ∧
    getStoredProcedureResultSetClassName true sp =
      cleanup sp.schema ++ "_" ++ cleanup sp.name ++ "Result" := by
  constructor
  · simp only [getTableClassName]
    rw [if_pos ⟨trivial, h1, h2⟩]
  · simp only [getStoredProcedureResultSetClassName]
    rw [if_pos ⟨trivial, h3, h4⟩]

/-- Witness for C2 (amended) at the spec's own example schema. -/
theorem tableClassName_schema_prefix_witness :
    getTableClassName true ⟨"sales", "Orders"⟩ =
      cleanup "sales" ++ "_" ++ cleanup "Orders" ∧
    getStoredProcedureResultSetClassName true ⟨"sales", "GetOrders", none⟩ =
      cleanup "sales" ++ "_" ++ cleanup "GetOrders" ++ "Result" :=
  tableClassName_schema_prefix ⟨"sales", "Orders"⟩ ⟨"sales", "GetOrders", none⟩
    (by decide) (by decide) (by decide) (by decide)

/- ### C3: table types are prefixed even for the default schema -/

/-- C3 (code bug): the schema-qualification rule is NOT applied
identically across object kinds.  With `includeSchema = true` and the
default schema `dbo`, tables, stored-procedure result sets and method
names apply no prefix, but `getTableTypeClassName` — whose guard lacks
the `schema !== 'dbo'` test — still prefixes `dbo_`. -/
theorem tableTypeClassName_dbo_inconsistency :
    getTableTypeClassName true ⟨"dbo", "MyType"⟩ = "dbo_MyType" ∧
    getTableClassName true ⟨"dbo", "MyType"⟩ = "MyType" ∧
    getStoredProcedureResultSetClassName true ⟨"dbo", "MyType", none⟩ =
      "MyTypeResult" ∧
    getTableInsertMethodName true ⟨"dbo", "MyType"⟩ = "InsertMyType" ∧
    getStoredProcedureMethodName true ⟨"dbo", "MyType", none⟩ = "MyType" := by
  refine ⟨by decide, by decide, by decide, by decide, by decide⟩

/- ### C6: parameter naming -/

/-- C6: `getParameterName` strips one leading `@` when present, applies
`cleanup`, applies the external lower-camel conversion, and prefixes `@`
exactly when the external reserved-keyword test holds of the resulting
name (escaping rather than renaming). -/
theorem getParameterName_pipeline (uLC : String → String) (iRK : String → Bool)
    (p : SqlParameter) :
    getParameterName uLC iRK p =
      (if iRK (uLC (cleanup
          (if p.name.startsWith "@" then p.name.drop 1 else p.name)))
       then "@" ++ uLC (cleanup
          (if p.name.startsWith "@" then p.name.drop 1 else p.name))
       else uLC (cleanup
          (if p.name.startsWith "@" then p.name.drop 1 else p.name))) := rfl

/- ### C9: column property naming fallback -/

/-- C9: a column without a name (the guard `!col.name` also treats the
empty string as no name) gets the positional name `Column` followed by
its ordinal; a column with a non-empty name gets its cleaned-up name. -/
theorem getColumnPropertyName_ordinal_fallback (col : ResultSetColumn) :
    (col.name = none →
      getColumnPropertyName col = "Column" ++ toString col.ordinal) ∧
    (∀ s : String, col.name = some s → s ≠ "" →
      getColumnPropertyName col = cleanup s) := by
  constructor
  · intro h
    simp [getColumnPropertyName, h]
  · intro s h hs
    simp [getColumnPropertyName, h, hs]

/-- Witness for C9: a nameless column with ordinal 3 and a named column
whose raw name carries a space. -/
theorem getColumnPropertyName_ordinal_fallback_witness :
    getColumnPropertyName ⟨none, 3, "int", false⟩ = "Column3" ∧
    getColumnPropertyName ⟨some "Order Id", 0, "int", false⟩ =
      cleanup "Order Id" :=
  ⟨(getColumnPropertyName_ordinal_fallback ⟨none, 3, "int", false⟩).1 rfl,
   (getColumnPropertyName_ordinal_fallback
      ⟨some "Order Id", 0, "int", false⟩).2 "Order Id" rfl (by decide)⟩

/- ### C10: mapper class naming -/

/-- C10: `getResultSetMapperClassName` appends the literal `Mapper` to
its argument unchanged, for every string, with no cleanup, schema
qualification or keyword check. -/
theorem getResultSetMapperClassName_appends (r : String) :
    getResultSetMapperClassName r = r ++ "Mapper" := rfl

end ReverseSql
